import Mathlib

/-!
# Verification of the HackX document question-answering backend

A shallow embedding, in Lean 4, of the decision logic of the HackX backend:

* `utils/file_loader.py` — text extraction from PDF / DOCX / TXT files
  (the PDF three-stage cascade, the TXT encoding cascade, the DOCX path);
* `utils/text_splitter.py` — chunking (modelled as an oracle, the splitting
  itself is delegated to an external library);
* `services/embedding_service.py` — the batch embedding gateway;
* `services/pinecone_service.py` — the vector-store gateway
  (client-side deduplication for listing);
* `services/document_processor.py` — the ingestion pipeline and deletion;
* `services/rag_service.py` — the retrieval-answer pipeline.

External services (the embedding model, the vector index, the LLM, the file
system) are modelled as oracles supplied through environment records; the
pure control flow of the Python source is translated directly.  Python
strings are modelled as Lean `String`; `str.strip()` is modelled over the
ASCII whitespace characters (Unicode space classes beyond ASCII are
abstracted away, no claim depends on them).  Floating-point relevance
scores are modelled as rationals.
-/

namespace HackX

/-- ASCII whitespace, the characters removed by Python's `str.strip()`
(space, tab, newline, carriage return, vertical tab, form feed). -/
def pyIsSpace (c : Char) : Bool :=
  c = ' ' || c = '\t' || c = '\n' || c = '\r' || c = '\x0b' || c = '\x0c'

/-- Python's `str.strip()`: remove leading and trailing whitespace. -/
def pyStrip (s : String) : String :=
  ⟨List.rdropWhile pyIsSpace (List.dropWhile pyIsSpace s.data)⟩

/-! ## File loading errors (`utils/file_loader.py` exception hierarchy) -/

/-- The `FileLoadError` hierarchy of `utils/file_loader.py`:
`UnsupportedFileTypeError`, `CorruptedFileError`, `PasswordProtectedError`,
`EmptyDocumentError`, and the base class itself for any other load failure. -/
inductive FileLoadErr where
  | unsupportedFileType
  | corruptedFile
  | passwordProtected
  | emptyDocument
  | otherLoadFailure
  deriving DecidableEq

/-- Decidable equality for `Except` results (used only to let witnesses
evaluate concrete runs with `decide`). -/
def exceptDecEq {e a : Type} [DecidableEq e] [DecidableEq a] :
    (x y : Except e a) → Decidable (x = y)
  | .error e1, .error e2 =>
    if h : e1 = e2 then .isTrue (by rw [h]) else .isFalse (by simp [h])
  | .error _, .ok _ => .isFalse (by simp)
  | .ok _, .error _ => .isFalse (by simp)
  | .ok a1, .ok a2 =>
    if h : a1 = a2 then .isTrue (by rw [h]) else .isFalse (by simp [h])

instance {e a : Type} [DecidableEq e] [DecidableEq a] :
    DecidableEq (Except e a) :=
  exceptDecEq

/-! ## TXT extraction (`FileLoader._load_txt`) -/

/-- The four text encodings tried by `_load_txt`, in source order. -/
inductive TxtEncoding where
  | utf8
  | utf8sig
  | latin1
  | cp1252
  deriving DecidableEq

/-- Outcome of `path.read_text(encoding=...)` for one encoding:
a decoded string, a `UnicodeDecodeError`, or any other exception
(I/O failure while reading). -/
inductive DecodeOutcome where
  | decoded (t : String)
  | unicodeError
  | readError
  deriving DecidableEq

/-- A TXT file, seen through the decoding oracle: what each encoding
attempt returns, and the raw byte length (used by the final
zero-byte check). -/
structure TxtFile where
  decode : TxtEncoding → DecodeOutcome
  byteLen : Nat

/-- `encodings = ["utf-8", "utf-8-sig", "latin-1", "cp1252"]`. -/
def txtEncodings : List TxtEncoding :=
  [TxtEncoding.utf8, TxtEncoding.utf8sig, TxtEncoding.latin1, TxtEncoding.cp1252]

/-- The encoding loop of `_load_txt`: return the first decode that yields
text with non-empty strip; `UnicodeDecodeError` continues with the next
encoding; any other read error raises `CorruptedFileError`.  After the
loop, `_load_txt` raises `EmptyDocumentError` (with a dedicated message
for a zero-byte file, same exception class either way). -/
def loadTxtAux (f : TxtFile) : List TxtEncoding → Except FileLoadErr String
  | [] => .error .emptyDocument
  | e :: rest =>
    match f.decode e with
    | .decoded t => if pyStrip t ≠ "" then .ok t else loadTxtAux f rest
    | .unicodeError => loadTxtAux f rest
    | .readError => .error .corruptedFile

/-- `FileLoader._load_txt`. -/
def loadTxt (f : TxtFile) : Except FileLoadErr String :=
  loadTxtAux f txtEncodings

/-- An encoding attempt that the `_load_txt` loop passes over: either the
decode raises `UnicodeDecodeError`, or it succeeds with text that is empty
after stripping. -/
def skipsEncoding (f : TxtFile) (e : TxtEncoding) : Prop :=
  f.decode e = .unicodeError ∨ ∃ t, f.decode e = .decoded t ∧ pyStrip t = ""

/-! ## PDF extraction (`FileLoader._load_pdf`, three-stage cascade) -/

/-- Outcome of `_pdf_preflight_check`: pass, or one of its typed failures
(`PasswordProtectedError`, zero pages → `EmptyDocumentError`,
`PdfReadError` → `CorruptedFileError`).  A non-fatal preflight warning is
the same as a pass. -/
inductive PreflightOutcome where
  | passed
  | passwordProtected
  | zeroPages
  | corrupted
  deriving DecidableEq

/-- A PDF file, seen through the extraction-stage oracles: the preflight
outcome and the text each of the three stages would produce
(`_pdf_stage_pypdf2`, `_pdf_stage_pdfplumber`, `_pdf_stage_ocr`; each
stage returns `""` on its own internal failure). -/
structure PdfFile where
  preflight : PreflightOutcome
  stage1 : String
  stage2 : String
  stage3 : String

/-- `_MIN_TEXT_LENGTH = 50`. -/
def MIN_TEXT_LENGTH : Nat := 50

/-- The stage-acceptance guard of `_load_pdf`:
`if text and len(text.strip()) >= _MIN_TEXT_LENGTH`. -/
def pdfStageOk (t : String) : Prop :=
  t ≠ "" ∧ MIN_TEXT_LENGTH ≤ (pyStrip t).length

instance (t : String) : Decidable (pdfStageOk t) := by
  unfold pdfStageOk; infer_instance

/-- `FileLoader._load_pdf`, instrumented with the list of stages that were
run (in order).  Preflight failures map to their typed errors; then the
three stages run in order, the first one whose output passes the guard is
returned stripped, and if none passes the load fails with
`EmptyDocumentError`. -/
def loadPdfT (p : PdfFile) : Except FileLoadErr String × List Nat :=
  match p.preflight with
  | .passwordProtected => (.error .passwordProtected, [])
  | .zeroPages => (.error .emptyDocument, [])
  | .corrupted => (.error .corruptedFile, [])
  | .passed =>
    if pdfStageOk p.stage1 then (.ok (pyStrip p.stage1), [1])
    else if pdfStageOk p.stage2 then (.ok (pyStrip p.stage2), [1, 2])
    else if pdfStageOk p.stage3 then (.ok (pyStrip p.stage3), [1, 2, 3])
    else (.error .emptyDocument, [1, 2, 3])

/-- `FileLoader._load_pdf` (result only). -/
def loadPdf (p : PdfFile) : Except FileLoadErr String :=
  (loadPdfT p).1

/-! ## DOCX extraction (`FileLoader._load_docx`) -/

/-- Outcome of opening the document with python-docx: the parsed content
(paragraph texts, and tables as rows of cell texts), an open failure whose
message looks password/encryption related, or any other open failure. -/
inductive DocxOpenOutcome where
  | opened (paragraphs : List String) (tables : List (List (List String)))
  | passwordProtected
  | openFailed

/-- A DOCX file, seen through the python-docx oracle. -/
structure DocxFile where
  open_ : DocxOpenOutcome

/-- One table row rendered by `_load_docx`: cells with non-empty strip,
stripped, joined with tabs. -/
def docxRowText (row : List String) : String :=
  String.intercalate "\t"
    ((row.filter (fun cell => pyStrip cell ≠ "")).map pyStrip)

/-- `FileLoader._load_docx`: paragraphs with non-empty strip (stripped),
then for each table each row whose rendered text has non-empty strip
(stripped), joined with blank lines; empty overall result raises
`EmptyDocumentError`. -/
def loadDocx (d : DocxFile) : Except FileLoadErr String :=
  match d.open_ with
  | .passwordProtected => .error .passwordProtected
  | .openFailed => .error .corruptedFile
  | .opened paragraphs tables =>
    let paraParts := (paragraphs.filter (fun t => pyStrip t ≠ "")).map pyStrip
    let tableParts :=
      (tables.flatMap (fun table => table.map docxRowText)).filter
        (fun t => pyStrip t ≠ "") |>.map pyStrip
    let fullText := String.intercalate "\n\n" (paraParts ++ tableParts)
    if pyStrip fullText = "" then .error .emptyDocument
    else .ok fullText

/-! ## `FileLoader.load` dispatch -/

/-- An input file together with its (already validated) type, as seen by
`FileLoader.load` after the existence and extension checks. -/
inductive FileInput where
  | pdf (p : PdfFile)
  | docx (d : DocxFile)
  | txt (t : TxtFile)

/-- `FileLoader.load`: dispatch to the extractor for the file's type. -/
def FileLoader.load : FileInput → Except FileLoadErr String
  | .pdf p => loadPdf p
  | .docx d => loadDocx d
  | .txt t => loadTxt t

/-! ## Embedding gateway (`services/embedding_service.py`) -/

/-- An embedding vector (floats abstracted as rationals). -/
def Embedding : Type := List ℚ

/-- Errors of `EmbeddingService.embed_texts`: `ValueError` on invalid
input, `RuntimeError` when the model call fails. -/
inductive EmbedErr where
  | invalidInput
  | serviceError
  deriving DecidableEq

/-- The Python truthiness test `t and t.strip()` used to filter batch
entries (`valid_texts = [t for t in texts if t and t.strip()]`). -/
def keepText (t : String) : Bool :=
  decide (t ≠ "") && decide (pyStrip t ≠ "")

/-- `EmbeddingService.embed_texts`, instrumented with the argument the
underlying model was called with (`none` when the model was not called).
`model` is the external `aembed_documents` oracle. -/
def embedTextsT (model : List String → Except Unit (List Embedding))
    (texts : List String) :
    Except EmbedErr (List Embedding) × Option (List String) :=
  if texts = [] then (.error .invalidInput, none)
  else
    let validTexts := texts.filter keepText
    if validTexts = [] then (.error .invalidInput, none)
    else
      match model validTexts with
      | .ok es => (.ok es, some validTexts)
      | .error _ => (.error .serviceError, some validTexts)

/-- `EmbeddingService.embed_texts` (result only). -/
def embedTexts (model : List String → Except Unit (List Embedding))
    (texts : List String) : Except EmbedErr (List Embedding) :=
  (embedTextsT model texts).1

/-! ## Vector records (`DocumentProcessor._prepare_vectors`) -/

/-- The metadata attached to each stored vector. -/
structure VectorMeta where
  user_id : String
  document_id : String
  file_name : String
  chunk_index : Nat
  text : String
  deriving DecidableEq

/-- One Pinecone record: id, embedding values, metadata. -/
structure VectorRecord where
  id : String
  values : Embedding
  metadata : VectorMeta

/-- The enumerated zip loop of `_prepare_vectors`
(`for idx, (chunk, embedding) in enumerate(zip(chunks, embeddings))`),
with the running index made explicit. -/
def prepareVectorsFrom (userId documentId fileName : String) :
    Nat → List String → List Embedding → List VectorRecord
  | idx, chunk :: chunks, embedding :: embeddings =>
    { id := documentId ++ "_chunk_" ++ toString idx,
      values := embedding,
      metadata :=
        { user_id := userId, document_id := documentId,
          file_name := fileName, chunk_index := idx, text := chunk } } ::
      prepareVectorsFrom userId documentId fileName (idx + 1) chunks embeddings
  | _, _, [] => []
  | _, [], _ => []

/-- `DocumentProcessor._prepare_vectors`. -/
def prepareVectors (chunks : List String) (embeddings : List Embedding)
    (userId documentId fileName : String) : List VectorRecord :=
  prepareVectorsFrom userId documentId fileName 0 chunks embeddings

/-! ## Ingestion pipeline (`services/document_processor.py`) -/

/-- The machine-readable `error_code` values attached to
`DocumentProcessingError` by `DocumentProcessor.process_document`. -/
inductive ErrorCode where
  | UNSUPPORTED_FILE_TYPE
  | SAVE_FAILED
  | PASSWORD_PROTECTED
  | CORRUPTED_FILE
  | EMPTY_DOCUMENT
  | EXTRACTION_FAILED
  | INSUFFICIENT_CONTENT
  | EMPTY_CHUNKS
  | EMBEDDING_FAILED
  | EMBEDDING_SERVICE_ERROR
  | PINECONE_SERVICE_ERROR
  | UNKNOWN_ERROR
  deriving DecidableEq

/-- The except-clause ladder of step 3: `PasswordProtectedError`,
`CorruptedFileError` and `EmptyDocumentError` map to their codes, any
other `FileLoadError` maps to `EXTRACTION_FAILED`. -/
def extractionErrorCode : FileLoadErr → ErrorCode
  | .passwordProtected => .PASSWORD_PROTECTED
  | .corruptedFile => .CORRUPTED_FILE
  | .emptyDocument => .EMPTY_DOCUMENT
  | .unsupportedFileType => .EXTRACTION_FAILED
  | .otherLoadFailure => .EXTRACTION_FAILED

/-- `Path(file_path).suffix.lower()`: the (lowercased) ".xxx" suffix after
the last dot, `""` when the name has no dot.  (The `pathlib` corner case
of a hidden file whose only dot is the leading one is abstracted away; no
claim depends on it.) -/
def fileExt (name : String) : String :=
  if '.' ∈ name.data then
    String.mk ('.' :: ((name.data.reverse.takeWhile (fun c => c ≠ '.')).reverse.map
      Char.toLower))
  else ""

/-- `FileLoader.SUPPORTED_EXTENSIONS = {".pdf", ".docx", ".txt"}`. -/
def SUPPORTED_EXTENSIONS : List String := [".pdf", ".docx", ".txt"]

/-- `FileLoader.validate_extension` succeeds iff the extension is in the
allow-set. -/
def validateExtensionOk (name : String) : Bool :=
  SUPPORTED_EXTENSIONS.contains (fileExt name)

/-- The external collaborators of one `process_document` run, as oracles:
the local save, the extractor result, the LangChain splitter, the
embedding call and the Pinecone upsert. -/
structure PipelineEnv where
  save : Except Unit Unit
  extract : Except FileLoadErr String
  split : String → Except Unit (List String)
  embed : List String → Except EmbedErr (List Embedding)
  upsert : List VectorRecord → Except Unit Nat

/-- The success dictionary returned by `process_document`. -/
structure ProcessResult where
  document_id : String
  file_name : String
  num_chunks : Nat
  total_characters : Nat
  status : String
  deriving DecidableEq

/-- Result of a `process_document` run, instrumented with which external
calls were made: whether the embedding service was called, whether the
vector store was called, whether the saved local artifact was cleaned up
on failure, plus the retained (post-filter) chunks and the vector records
passed to the upsert (both `[]` when the run never got that far). -/
structure ProcessOutcome where
  result : Except ErrorCode ProcessResult
  embedCalled : Bool
  upsertCalled : Bool
  localCleanup : Bool
  retainedChunks : List String
  storedVectors : List VectorRecord

/-- `DocumentProcessor.process_document`: validate the extension, save the
file, extract text, check the two text gates (non-empty after strip, then
minimum 50 characters), split, drop empty chunks, embed, prepare vector
records and upsert.  Every failure from extraction onward also deletes the
saved local artifact. -/
def processDocument (env : PipelineEnv) (fileName userId documentId : String) :
    ProcessOutcome :=
  if ¬ validateExtensionOk fileName then
    ⟨.error .UNSUPPORTED_FILE_TYPE, false, false, false, [], []⟩
  else
    match env.save with
    | .error _ => ⟨.error .SAVE_FAILED, false, false, false, [], []⟩
    | .ok _ =>
      match env.extract with
      | .error e => ⟨.error (extractionErrorCode e), false, false, true, [], []⟩
      | .ok text =>
        let cleanText := pyStrip text
        if cleanText = "" then
          ⟨.error .EMPTY_DOCUMENT, false, false, true, [], []⟩
        else if cleanText.length < 50 then
          ⟨.error .INSUFFICIENT_CONTENT, false, false, true, [], []⟩
        else
          match env.split cleanText with
          | .error _ => ⟨.error .INSUFFICIENT_CONTENT, false, false, true, [], []⟩
          | .ok chunks0 =>
            if chunks0 = [] then
              ⟨.error .EMPTY_CHUNKS, false, false, true, [], []⟩
            else
              let chunks := chunks0.filter keepText
              if chunks = [] then
                ⟨.error .EMPTY_CHUNKS, false, false, true, [], []⟩
              else
                match env.embed chunks with
                | .error .invalidInput =>
                  ⟨.error .EMBEDDING_FAILED, true, false, true, chunks, []⟩
                | .error .serviceError =>
                  ⟨.error .EMBEDDING_SERVICE_ERROR, true, false, true, chunks, []⟩
                | .ok embeddings =>
                  let vectors :=
                    prepareVectors chunks embeddings userId documentId fileName
                  match env.upsert vectors with
                  | .error _ =>
                    ⟨.error .PINECONE_SERVICE_ERROR, true, true, true, chunks,
                      vectors⟩
                  | .ok _ =>
                    ⟨.ok ⟨documentId, fileName, chunks.length, cleanText.length,
                        "success"⟩,
                      true, true, false, chunks, vectors⟩

/-! ## Deletion (`DocumentProcessor.delete_document`, `_delete_file`) -/

/-- Oracles for one `delete_document` run: the Pinecone
`delete_by_document` call, and whether the local artifact directory
exists. -/
structure DeleteEnv where
  pineconeDelete : Except Unit Unit
  localFileExists : Bool

/-- The dictionary returned by a successful `delete_document`. -/
structure DeleteResult where
  document_id : String
  status : String
  deriving DecidableEq

/-- Result of a `delete_document` run.  `localDelete` is `none` when
`_delete_file` was never reached, and `some b` when it ran (`b` records
whether the directory existed and was removed; a missing directory is a
logged no-op, `_delete_file` never raises either way). -/
structure DeleteOutcome where
  result : Except Unit DeleteResult
  localDelete : Option Bool

/-- `DocumentProcessor.delete_document`: await the Pinecone deletion, then
await `_delete_file`, then return the status dictionary.  An exception
from the Pinecone deletion propagates before `_delete_file` runs. -/
def deleteDocument (env : DeleteEnv) (_userId documentId : String) :
    DeleteOutcome :=
  match env.pineconeDelete with
  | .error _ => ⟨.error (), none⟩
  | .ok _ => ⟨.ok ⟨documentId, "deleted"⟩, some env.localFileExists⟩

/-! ## Listing (`PineconeService.list_documents_for_user`) -/

/-- The metadata of one raw match returned by the broad listing query
(either field may be absent from the metadata dictionary). -/
structure ListMeta where
  document_id : Option String
  file_name : Option String

/-- One entry of the deduplicated listing result. -/
structure DocEntry where
  document_id : String
  file_name : String
  deriving DecidableEq

/-- The deduplication loop of `list_documents_for_user`: walk the raw
matches in backend order, keeping the first entry per truthy
`document_id` (Python dicts preserve insertion order, so
`list(seen.values())` is first-seen order, modelled by appending). -/
def buildSeen : List ListMeta → List DocEntry → List DocEntry
  | [], seen => seen
  | m :: rest, seen =>
    match m.document_id with
    | none => buildSeen rest seen
    | some d =>
      if d ≠ "" ∧ seen.all (fun e => e.document_id ≠ d) then
        buildSeen rest (seen ++ [⟨d, m.file_name.getD "Unknown"⟩])
      else buildSeen rest seen

/-- `PineconeService.list_documents_for_user`, as a function of the raw
matches the backing index returned for the user-filtered broad query. -/
def listDocumentsForUser (found : List ListMeta) : List DocEntry :=
  buildSeen found []

/-! ## Retrieval-answer pipeline (`services/rag_service.py`) -/

/-- Metadata of one similarity match as used by `ask_question`
(each field read with `.get` and a default). -/
structure RagMeta where
  text : Option String
  chunk_index : Option Nat
  file_name : Option String

/-- One similarity match: id, relevance score (a float, modelled as a
rational), metadata. -/
structure QueryMatch where
  id : String
  score : ℚ
  metadata : RagMeta

/-- One entry of the `sources` list built by `ask_question`.
`chunk_index = none` models the `"?"` default of
`metadata.get("chunk_index", "?")`. -/
structure RagSource where
  chunk_index : Option Nat
  text : String
  relevance_score : ℚ
  file_name : String

/-- The result dictionary of `ask_question`. -/
structure RagAnswer where
  answer : String
  sources : List RagSource
  num_sources : Nat
  question : String

/-- Python's `round(x, 4)` on the (rational-modelled) score: round to four
decimal places, ties to even. -/
def pyRound4 (q : ℚ) : ℚ :=
  let x := q * 10000
  let f := x.floor
  let r := x - (f : ℚ)
  (((if r < 1 / 2 then f
     else if 1 / 2 < r then f + 1
     else if f % 2 = 0 then f else f + 1) : ℤ) : ℚ) / 10000

/-- `chunk_index` as displayed in a context label
(`metadata.get("chunk_index", "?")`). -/
def chunkIndexStr : Option Nat → String
  | some n => toString n
  | none => "?"

/-- One labeled context segment
(`[Source <n> | Chunk <i> | Relevance: <score>]` followed by the chunk
text; the fixed-point decimal rendering of the score is abstracted to the
rounded rational's string form). -/
def contextPart (i : Nat) (m : QueryMatch) : String :=
  "[Source " ++ toString i ++ " | Chunk " ++
    chunkIndexStr m.metadata.chunk_index ++ " | Relevance: " ++
    toString (pyRound4 m.score) ++ "]\n" ++ m.metadata.text.getD ""

/-- The context block: segments in store order, joined with the visible
separator. -/
def buildContext (found : List QueryMatch) : String :=
  String.intercalate "\n\n---\n\n"
    ((List.enumFrom 1 found).map (fun p => contextPart p.1 p.2))

/-- The `sources` entry built from one match. -/
def matchSource (m : QueryMatch) : RagSource :=
  ⟨m.metadata.chunk_index, m.metadata.text.getD "", pyRound4 m.score,
    m.metadata.file_name.getD "Unknown"⟩

/-- Errors of `ask_question`: `ValueError` on an empty question,
`RuntimeError` on any downstream failure. -/
inductive RagErr where
  | invalidInput
  | serviceError
  deriving DecidableEq

/-- The fixed sentinel answer. -/
def NO_ANSWER : String := "Answer not found in the uploaded document."

/-- Oracles for one `ask_question` run: the question embedding, the
filtered Pinecone query response, and the LLM (context ↦ generated
answer). -/
structure RagEnv where
  embedQ : Except Unit Embedding
  queryResult : Except Unit (List QueryMatch)
  llm : String → String

/-- `RAGService.ask_question`, instrumented with whether the generation
model was called: reject an empty question, embed it, query the store; on
zero matches return the sentinel with no sources and do not call the LLM;
otherwise build sources and context, call the LLM and return its stripped
answer. -/
def askQuestionT (env : RagEnv) (question _userId _documentId : String) :
    Except RagErr RagAnswer × Bool :=
  if question = "" ∨ pyStrip question = "" then (.error .invalidInput, false)
  else
    match env.embedQ with
    | .error _ => (.error .serviceError, false)
    | .ok _ =>
      match env.queryResult with
      | .error _ => (.error .serviceError, false)
      | .ok [] => (.ok ⟨NO_ANSWER, [], 0, question⟩, false)
      | .ok found =>
        let sources := found.map matchSource
        let answer := env.llm (buildContext found)
        (.ok ⟨pyStrip answer, sources, sources.length, question⟩, true)

/-! ## Concrete instances used by the witness theorems -/

/-- A TXT file that decodes as UTF-8 to a 10-character text. -/
def txtShort : TxtFile := ⟨fun _ => .decoded "too short!", 10⟩

/-- A TXT file whose UTF-8 decode fails, whose UTF-8-BOM decode yields
real text, and whose remaining decodes yield whitespace. -/
def txtBom : TxtFile :=
  ⟨fun e =>
    match e with
    | .utf8 => .unicodeError
    | .utf8sig => .decoded "hello from the second encoding"
    | _ => .decoded " ", 34⟩

/-- A zero-byte TXT file: every encoding decodes to the empty string. -/
def txtZero : TxtFile := ⟨fun _ => .decoded "", 0⟩

/-- A 64-character line of text with no surrounding whitespace. -/
def longPdfText : String :=
  "This native text layer holds more than fifty characters of prose"

/-- A PDF whose first (PyPDF2) stage already yields enough text. -/
def pdfNative : PdfFile := ⟨.passed, longPdfText, "", ""⟩

/-- A PDF all of whose stages yield below-threshold text. -/
def pdfScanned : PdfFile := ⟨.passed, "", "hdr", "  "⟩

/-- A pipeline environment whose extractor returns a 4-character text. -/
def envTiny : PipelineEnv :=
  ⟨.ok (), .ok "tiny", fun _ => .error (), fun _ => .error .invalidInput,
    fun _ => .error ()⟩

/-- A pipeline environment whose extractor returns whitespace only. -/
def envBlank : PipelineEnv :=
  ⟨.ok (), .ok "   ", fun _ => .error (), fun _ => .error .invalidInput,
    fun _ => .error ()⟩

/-- An embedding model that answers every text with the vector `[2]`. -/
def modelConst : List String → Except Unit (List Embedding) :=
  fun ts => .ok (ts.map fun _ => [2])

/-- A 58-character extracted text used by the full-pipeline witness. -/
def okText : String :=
  "A document body that comfortably clears the length gate16."

/-- A pipeline environment that runs end to end: the splitter returns the
text as one chunk, the embedder is `embed_texts` over `modelConst`, and
the upsert accepts. -/
def envFull : PipelineEnv :=
  ⟨.ok (), .ok okText, fun s => .ok [s], embedTexts modelConst,
    fun _ => .ok 1⟩

/-- A RAG environment whose filtered query returns no matches. -/
def envNoMatch : RagEnv := ⟨.ok [], .ok [], fun _ => "ignored"⟩

/-- A delete environment whose Pinecone deletion fails while a local
artifact exists. -/
def envDeleteFail : DeleteEnv := ⟨.error (), true⟩

/-- A delete environment whose Pinecone deletion succeeds and whose local
artifact is absent. -/
def envDeleteNoFile : DeleteEnv := ⟨.ok (), false⟩

/-- Raw listing matches with a duplicated id, a missing id and a missing
file name. -/
def foundDup : List ListMeta :=
  [⟨some "A", some "f1"⟩, ⟨some "A", some "f2"⟩, ⟨none, some "g"⟩,
    ⟨some "B", none⟩]

/-! ## Helper lemmas -/

theorem pyStrip_empty : pyStrip "" = "" := rfl

/-- Left-trimming after a full (left-then-right) trim is the identity:
the head of the trimmed list, when it exists, is not whitespace. -/
theorem dropWhile_rdropWhile_dropWhile (p : Char → Bool) (l : List Char) :
    List.dropWhile p (List.rdropWhile p (List.dropWhile p l)) =
      List.rdropWhile p (List.dropWhile p l) := by
  rw [List.dropWhile_eq_self_iff]
  intro hl
  have hpre := List.rdropWhile_prefix p (List.dropWhile p l)
  have hxlen : 0 < (List.dropWhile p l).length := lt_of_lt_of_le hl hpre.length_le
  simp only [List.get_eq_getElem]
  rw [hpre.getElem hl]
  have := List.dropWhile_get_zero_not p l hxlen
  simpa using this

/-- `str.strip()` is idempotent. -/
theorem pyStrip_idem (s : String) : pyStrip (pyStrip s) = pyStrip s := by
  have h : (pyStrip s).data =
      List.rdropWhile pyIsSpace (List.dropWhile pyIsSpace s.data) := rfl
  show String.mk (List.rdropWhile pyIsSpace
    (List.dropWhile pyIsSpace (pyStrip s).data)) = pyStrip s
  rw [h, dropWhile_rdropWhile_dropWhile, List.rdropWhile_idempotent]
  rfl

theorem pyStrip_length_le (s : String) : (pyStrip s).length ≤ s.length := by
  show (List.rdropWhile pyIsSpace (List.dropWhile pyIsSpace s.data)).length ≤
    s.data.length
  calc (List.rdropWhile pyIsSpace (List.dropWhile pyIsSpace s.data)).length
      ≤ (List.dropWhile pyIsSpace s.data).length :=
        (List.rdropWhile_prefix _ _).length_le
    _ ≤ s.data.length := (List.dropWhile_sublist _).length_le

/-- A string whose trimmed form is nonempty is itself nonempty — Python
truthiness of the raw string follows from that of the stripped string. -/
theorem ne_empty_of_pyStrip_ne (s : String) (h : pyStrip s ≠ "") : s ≠ "" := by
  intro he
  subst he
  exact h pyStrip_empty

theorem loadTxtAux_append_skipped (f : TxtFile) (pre rest : List TxtEncoding)
    (h : ∀ e ∈ pre, skipsEncoding f e) :
    loadTxtAux f (pre ++ rest) = loadTxtAux f rest := by
  induction pre with
  | nil => rfl
  | cons e pre ih =>
    have he := h e (List.mem_cons_self e pre)
    have hrest : ∀ e' ∈ pre, skipsEncoding f e' :=
      fun e' he' => h e' (List.mem_cons_of_mem e he')
    rcases he with hu | ⟨t, hdec, hstrip⟩
    · show loadTxtAux f (e :: (pre ++ rest)) = _
      rw [loadTxtAux]
      rw [hu]
      exact ih hrest
    · show loadTxtAux f (e :: (pre ++ rest)) = _
      rw [loadTxtAux]
      rw [hdec]
      simp only [hstrip, ne_eq, not_true_eq_false, if_false]
      exact ih hrest

theorem loadTxtAux_no_success (f : TxtFile) (l : List TxtEncoding)
    (h : ∀ e ∈ l, ∀ t, f.decode e = .decoded t → pyStrip t = "") :
    loadTxtAux f l = .error .emptyDocument ∨
      loadTxtAux f l = .error .corruptedFile := by
  induction l with
  | nil => exact Or.inl rfl
  | cons e rest ih =>
    have hrest : ∀ e' ∈ rest, ∀ t, f.decode e' = .decoded t → pyStrip t = "" :=
      fun e' he' => h e' (List.mem_cons_of_mem e he')
    rw [loadTxtAux]
    cases hdec : f.decode e with
    | decoded t =>
      have hstrip := h e (List.mem_cons_self e rest) t hdec
      simp only [hstrip, ne_eq, not_true_eq_false, if_false]
      exact ih hrest
    | unicodeError => exact ih hrest
    | readError => exact Or.inr rfl

/-- The stage guard holds exactly when the stripped output reaches the
50-character threshold (such output is automatically nonempty). -/
theorem pdfStageOk_iff (t : String) :
    pdfStageOk t ↔ MIN_TEXT_LENGTH ≤ (pyStrip t).length := by
  constructor
  · exact fun h => h.2
  · intro h
    refine ⟨?_, h⟩
    intro he
    subst he
    rw [pyStrip_empty] at h
    simp [MIN_TEXT_LENGTH, String.length] at h

theorem prepareVectorsFrom_length (u d f : String) :
    ∀ (n : Nat) (cs : List String) (es : List Embedding),
      (prepareVectorsFrom u d f n cs es).length = min cs.length es.length
  | _, [], [] => rfl
  | _, [], _ :: _ => rfl
  | _, _ :: _, [] => rfl
  | n, _ :: cs, _ :: es => by
    rw [prepareVectorsFrom, List.length_cons,
      prepareVectorsFrom_length u d f (n + 1) cs es]
    simp only [List.length_cons]
    omega

theorem prepareVectorsFrom_map_text (u d f : String) :
    ∀ (n : Nat) (cs : List String) (es : List Embedding),
      cs.length = es.length →
      (prepareVectorsFrom u d f n cs es).map (fun v => v.metadata.text) = cs
  | _, [], [], _ => rfl
  | _, [], _ :: _, h => by simp at h
  | _, _ :: _, [], h => by simp at h
  | n, c :: cs, e :: es, h => by
    rw [prepareVectorsFrom, List.map_cons]
    rw [prepareVectorsFrom_map_text u d f (n + 1) cs es (by simpa using h)]

theorem prepareVectorsFrom_map_values (u d f : String) :
    ∀ (n : Nat) (cs : List String) (es : List Embedding),
      cs.length = es.length →
      (prepareVectorsFrom u d f n cs es).map (fun v => v.values) = es
  | _, [], [], _ => rfl
  | _, [], _ :: _, h => by simp at h
  | _, _ :: _, [], h => by simp at h
  | n, c :: cs, e :: es, h => by
    rw [prepareVectorsFrom, List.map_cons]
    rw [prepareVectorsFrom_map_values u d f (n + 1) cs es (by simpa using h)]

theorem prepareVectorsFrom_id (u d f : String) :
    ∀ (n : Nat) (cs : List String) (es : List Embedding) (i : Nat)
      (h : i < (prepareVectorsFrom u d f n cs es).length),
      ((prepareVectorsFrom u d f n cs es).get ⟨i, h⟩).id =
        d ++ "_chunk_" ++ toString (n + i)
  | _, [], _, _, h => by rw [prepareVectorsFrom_length] at h; simp at h
  | _, _ :: _, [], _, h => by rw [prepareVectorsFrom_length] at h; simp at h
  | n, c :: cs, e :: es, 0, h => by simp [prepareVectorsFrom]
  | n, c :: cs, e :: es, i + 1, h => by
    have h' : i < (prepareVectorsFrom u d f (n + 1) cs es).length := by
      simp only [prepareVectorsFrom, List.length_cons] at h
      omega
    have harg : n + 1 + i = n + (i + 1) := by omega
    have ih := prepareVectorsFrom_id u d f (n + 1) cs es i h'
    rw [harg] at ih
    simp only [prepareVectorsFrom, List.get_eq_getElem, List.getElem_cons_succ]
    simp only [List.get_eq_getElem] at ih
    exact ih

/-- The batch filter keeps a text exactly when it is non-empty after
stripping (Python `t and t.strip()`). -/
theorem keepText_iff (t : String) : keepText t = true ↔ pyStrip t ≠ "" := by
  unfold keepText
  rw [Bool.and_eq_true, decide_eq_true_eq, decide_eq_true_eq]
  exact ⟨fun h => h.2, fun h => ⟨ne_empty_of_pyStrip_ne t h, h⟩⟩

theorem filter_filter_self {α : Type} (p : α → Bool) (l : List α) :
    (l.filter p).filter p = l.filter p := by
  induction l with
  | nil => rfl
  | cons a l ih =>
    cases h : p a
    · simp [List.filter_cons, h, ih]
    · simp [List.filter_cons, h, ih]

theorem ne_empty_of_length_ge (s : String)
    (h : MIN_TEXT_LENGTH ≤ s.length) : s ≠ "" := by
  intro he
  rw [he] at h
  exact absurd h (by decide)

/-- Whatever text the `_load_txt` loop returns passed its non-empty-strip
acceptance test. -/
theorem loadTxtAux_ok_strip (f : TxtFile) :
    ∀ (l : List TxtEncoding) (t : String),
      loadTxtAux f l = .ok t → pyStrip t ≠ ""
  | [], t, h => by simp [loadTxtAux] at h
  | e :: rest, t, h => by
    revert h
    rw [loadTxtAux]
    cases hdec : f.decode e with
    | decoded t' =>
      dsimp only
      by_cases hs : pyStrip t' ≠ ""
      · rw [if_pos hs]
        intro h
        injection h with h
        subst h
        exact hs
      · rw [if_neg hs]
        intro h
        exact loadTxtAux_ok_strip f rest t h
    | unicodeError =>
      intro h
      exact loadTxtAux_ok_strip f rest t h
    | readError =>
      intro h
      simp at h

/-- Whatever text `_load_docx` returns passed its final non-empty check. -/
theorem loadDocx_ok_strip (d : DocxFile) (t : String)
    (h : loadDocx d = .ok t) : pyStrip t ≠ "" := by
  obtain ⟨o⟩ := d
  cases o with
  | passwordProtected => simp [loadDocx] at h
  | openFailed => simp [loadDocx] at h
  | opened ps ts =>
    simp only [loadDocx] at h
    split at h
    · simp at h
    · rename_i hne
      simp only [Except.ok.injEq] at h
      subst h
      exact hne

/-- Whatever text `_load_pdf` returns cleared the 50-character threshold
(and is already stripped). -/
theorem loadPdf_ok (p : PdfFile) (t : String) (h : loadPdf p = .ok t) :
    MIN_TEXT_LENGTH ≤ (pyStrip t).length := by
  obtain ⟨pf, s1, s2, s3⟩ := p
  cases pf with
  | passwordProtected => simp [loadPdf, loadPdfT] at h
  | zeroPages => simp [loadPdf, loadPdfT] at h
  | corrupted => simp [loadPdf, loadPdfT] at h
  | passed =>
    simp only [loadPdf, loadPdfT] at h
    split at h
    · rename_i hg
      simp only [Except.ok.injEq] at h
      subst h
      rw [pyStrip_idem]
      exact (pdfStageOk_iff _).mp hg
    · split at h
      · rename_i hg
        simp only [Except.ok.injEq] at h
        subst h
        rw [pyStrip_idem]
        exact (pdfStageOk_iff _).mp hg
      · split at h
        · rename_i hg
          simp only [Except.ok.injEq] at h
          subst h
          rw [pyStrip_idem]
          exact (pdfStageOk_iff _).mp hg
        · simp at h

/-- Whenever a `process_document` run reaches the vector-store upsert, the
run extracted some text, split it, embedded the filtered chunks, and the
instrumented outcome records exactly those chunks and the vector records
prepared from them. -/
theorem processDocument_upsert_shape (env : PipelineEnv)
    (fileName userId documentId : String)
    (hcall : (processDocument env fileName userId documentId).upsertCalled =
      true) :
    ∃ text chunks0 es,
      env.extract = .ok text ∧
      env.split (pyStrip text) = .ok chunks0 ∧
      env.embed (chunks0.filter keepText) = .ok es ∧
      (processDocument env fileName userId documentId).retainedChunks =
        chunks0.filter keepText ∧
      (processDocument env fileName userId documentId).storedVectors =
        prepareVectors (chunks0.filter keepText) es userId documentId
          fileName := by
  by_cases hv : validateExtensionOk fileName = true
  case neg => simp [processDocument, hv] at hcall
  case pos =>
  cases hs : env.save with
  | error u => simp [processDocument, hv, hs] at hcall
  | ok u =>
  cases hx : env.extract with
  | error e => simp [processDocument, hv, hs, hx] at hcall
  | ok text =>
  by_cases h1 : pyStrip text = ""
  case pos => simp [processDocument, hv, hs, hx, h1] at hcall
  case neg =>
  by_cases h2 : (pyStrip text).length < 50
  case pos => simp [processDocument, hv, hs, hx, h1, h2] at hcall
  case neg =>
  cases hsp : env.split (pyStrip text) with
  | error u2 => simp [processDocument, hv, hs, hx, h1, h2, hsp] at hcall
  | ok chunks0 =>
  by_cases hc0 : chunks0 = []
  case pos => simp [processDocument, hv, hs, hx, h1, h2, hsp, hc0] at hcall
  case neg =>
  by_cases hcf : chunks0.filter keepText = []
  case pos =>
    simp [processDocument, hv, hs, hx, h1, h2, hsp, hc0, hcf] at hcall
  case neg =>
  cases hm : env.embed (chunks0.filter keepText) with
  | error ee =>
    cases ee <;>
      simp [processDocument, hv, hs, hx, h1, h2, hsp, hc0, hcf, hm] at hcall
  | ok es =>
    refine ⟨text, chunks0, es, rfl, hsp, hm, ?_, ?_⟩ <;>
      cases hup : env.upsert (prepareVectors (chunks0.filter keepText) es
        userId documentId fileName) <;>
      simp [processDocument, hv, hs, hx, h1, h2, hsp, hc0, hcf, hm, hup]

/-- The invariant of the deduplication loop: the accumulator's ids stay
distinct, and every produced entry either was already in the accumulator
or is the first occurrence of its id in the remaining matches. -/
theorem buildSeen_invariant :
    ∀ (rest : List ListMeta) (seen : List DocEntry),
      (seen.map (fun e => e.document_id)).Nodup →
      ((buildSeen rest seen).map (fun e => e.document_id)).Nodup ∧
      ∀ e ∈ buildSeen rest seen, e ∈ seen ∨
        (e.document_id ≠ "" ∧
          (∀ e' ∈ seen, e'.document_id ≠ e.document_id) ∧
          ∃ m, rest.find?
              (fun m' => m'.document_id == some e.document_id) = some m ∧
            e.file_name = m.file_name.getD "Unknown")
  | [], seen, hn => ⟨hn, fun e he => Or.inl he⟩
  | m :: rest, seen, hn => by
    cases hd : m.document_id with
    | none =>
      have hred : buildSeen (m :: rest) seen = buildSeen rest seen := by
        rw [buildSeen, hd]
      obtain ⟨ih1, ih2⟩ := buildSeen_invariant rest seen hn
      rw [hred]
      refine ⟨ih1, ?_⟩
      intro e he
      rcases ih2 e he with h | ⟨hne, hall, mm, hfind, hfn⟩
      · exact Or.inl h
      · refine Or.inr ⟨hne, hall, mm, ?_, hfn⟩
        rw [List.find?_cons_of_neg]
        · exact hfind
        · simp [hd]
    | some d =>
      by_cases hg : d ≠ "" ∧ seen.all (fun e => e.document_id ≠ d)
      · have hnotin : ∀ e' ∈ seen, e'.document_id ≠ d := by
          intro e' he'
          have hall2 := hg.2
          rw [List.all_eq_true] at hall2
          have := hall2 e' he'
          simpa using this
        have hn' : (((seen ++ [⟨d, m.file_name.getD "Unknown"⟩]) :
            List DocEntry).map (fun e => e.document_id)).Nodup := by
          rw [List.map_append, List.nodup_append]
          refine ⟨hn, by simp, ?_⟩
          intro a ha hb
          simp only [List.map_cons, List.map_nil, List.mem_singleton] at hb
          subst hb
          obtain ⟨e', he', he'id⟩ := List.mem_map.mp ha
          exact hnotin e' he' he'id
        have hred : buildSeen (m :: rest) seen =
            buildSeen rest (seen ++ [⟨d, m.file_name.getD "Unknown"⟩]) := by
          rw [buildSeen, hd]
          exact if_pos hg
        obtain ⟨ih1, ih2⟩ :=
          buildSeen_invariant rest (seen ++ [⟨d, m.file_name.getD "Unknown"⟩])
            hn'
        rw [hred]
        refine ⟨ih1, ?_⟩
        intro e he
        rcases ih2 e he with hmem | ⟨hne, hall', mm, hfind, hfn⟩
        · rcases List.mem_append.mp hmem with h | h
          · exact Or.inl h
          · have he' : e = ⟨d, m.file_name.getD "Unknown"⟩ := by simpa using h
            subst he'
            refine Or.inr ⟨hg.1, hnotin, m, ?_, rfl⟩
            rw [List.find?_cons_of_pos]
            simp [hd]
        · have hallseen : ∀ e' ∈ seen, e'.document_id ≠ e.document_id :=
            fun e' he' => hall' e' (List.mem_append.mpr (Or.inl he'))
          have hdne : d ≠ e.document_id := by
            have := hall' ⟨d, m.file_name.getD "Unknown"⟩
              (List.mem_append.mpr (Or.inr (by simp)))
            simpa using this
          refine Or.inr ⟨hne, hallseen, mm, ?_, hfn⟩
          rw [List.find?_cons_of_neg]
          · exact hfind
          · simp [hd, hdne]
      · have hred : buildSeen (m :: rest) seen = buildSeen rest seen := by
          rw [buildSeen, hd]
          exact if_neg hg
        obtain ⟨ih1, ih2⟩ := buildSeen_invariant rest seen hn
        rw [hred]
        refine ⟨ih1, ?_⟩
        intro e he
        rcases ih2 e he with h | ⟨hne, hall, mm, hfind, hfn⟩
        · exact Or.inl h
        · refine Or.inr ⟨hne, hall, mm, ?_, hfn⟩
          rw [List.find?_cons_of_neg]
          · exact hfind
          · by_cases hdempty : d = ""
            · have hne' : d ≠ e.document_id := by
                rw [hdempty]
                exact fun hh => hne hh.symm
              simp [hd, hne']
            · have hnall : ¬ (seen.all (fun e => e.document_id ≠ d) = true) :=
                fun hall2 => hg ⟨hdempty, hall2⟩
              rw [List.all_eq_true] at hnall
              push_neg at hnall
              obtain ⟨e', he', hid⟩ := hnall
              have hid2 : e'.document_id = d := by
                by_contra hcon
                exact hid (by simp [hcon])
              have := hall e' he'
              rw [hid2] at this
              simp [hd, this]

/-! ## Claim theorems -/

/-- C1: after extraction, `process_document` checks the two text gates in
order — text empty after stripping fails with `EMPTY_DOCUMENT`, and
otherwise stripped text shorter than 50 characters fails with
`INSUFFICIENT_CONTENT`; in either case the embedding service and the
vector store are never called (the whole failure outcome, including both
call flags, is pinned down). -/
theorem c1_textcheck_gates (env : PipelineEnv)
    (fileName userId documentId text : String)
    (hext : validateExtensionOk fileName = true)
    (hsave : env.save = .ok ())
    (hload : env.extract = .ok text) :
    (pyStrip text = "" →
      processDocument env fileName userId documentId =
        ⟨.error .EMPTY_DOCUMENT, false, false, true, [], []⟩) ∧
    (pyStrip text ≠ "" → (pyStrip text).length < 50 →
      processDocument env fileName userId documentId =
        ⟨.error .INSUFFICIENT_CONTENT, false, false, true, [], []⟩) := by
  constructor
  · intro h
    simp [processDocument, hext, hsave, hload, h]
  · intro h1 h2
    simp [processDocument, hext, hsave, hload, h1, h2]

/-- C1 witness: a whitespace-only extraction fails with `EMPTY_DOCUMENT`
and a 4-character extraction fails with `INSUFFICIENT_CONTENT`, in both
cases without calling the embedding service or the vector store. -/
theorem c1_textcheck_gates_witness :
    processDocument envBlank "a.txt" "u1" "d1" =
        ⟨.error .EMPTY_DOCUMENT, false, false, true, [], []⟩ ∧
      processDocument envTiny "a.txt" "u1" "d2" =
        ⟨.error .INSUFFICIENT_CONTENT, false, false, true, [], []⟩ :=
  ⟨(c1_textcheck_gates envBlank "a.txt" "u1" "d1" "   " (by decide) rfl
      rfl).1 (by decide),
    (c1_textcheck_gates envTiny "a.txt" "u1" "d2" "tiny" (by decide) rfl
      rfl).2 (by decide) (by decide)⟩

/-- C2 counterexample: `FileLoader.load` on a TXT file whose UTF-8 decode
yields a 10-character text returns that text, which is below the
50-character threshold — the extractor does not enforce the minimum on
the TXT path. -/
theorem c2_short_txt_counterexample :
    FileLoader.load (.txt txtShort) = .ok "too short!" ∧
      (pyStrip "too short!").length < MIN_TEXT_LENGTH :=
  ⟨by decide, by decide⟩

/-- C2 amended: only the PDF path enforces the 50-character minimum; on
every path (PDF, DOCX, TXT) the text returned by `FileLoader.load` is
non-empty after trimming, with `EmptyDocument` raised instead of empty
text, but DOCX and TXT may return text shorter than 50 characters. -/
theorem c2_extractor_threshold (f : FileInput) (t : String)
    (h : FileLoader.load f = .ok t) :
    pyStrip t ≠ "" ∧
      ∀ p, f = FileInput.pdf p → MIN_TEXT_LENGTH ≤ (pyStrip t).length := by
  cases f with
  | pdf p =>
    have hlen := loadPdf_ok p t h
    exact ⟨ne_empty_of_length_ge (pyStrip t) hlen, fun q hq => hlen⟩
  | docx d =>
    refine ⟨loadDocx_ok_strip d t h, fun p hp => ?_⟩
    exact FileInput.noConfusion hp
  | txt tf =>
    refine ⟨loadTxtAux_ok_strip tf txtEncodings t h, fun p hp => ?_⟩
    exact FileInput.noConfusion hp

/-- C2 amended witness: applied to a PDF whose native layer yields 64
characters. -/
theorem c2_extractor_threshold_witness :
    pyStrip longPdfText ≠ "" ∧
      ∀ p, FileInput.pdf pdfNative = FileInput.pdf p →
        MIN_TEXT_LENGTH ≤ (pyStrip longPdfText).length :=
  c2_extractor_threshold (FileInput.pdf pdfNative) longPdfText (by decide)

/-- C3: for a PDF passing preflight, the three stages run in the fixed
order 1 (PyPDF2), 2 (pdfplumber), 3 (OCR); the first stage whose output
reaches 50 characters after trimming is returned (stripped) with no later
stage run, and if all three fall short the load fails with
`EmptyDocumentError` after running all three. -/
theorem c3_pdf_cascade (p : PdfFile) (hpre : p.preflight = .passed) :
    (MIN_TEXT_LENGTH ≤ (pyStrip p.stage1).length →
      loadPdfT p = (.ok (pyStrip p.stage1), [1])) ∧
    ((pyStrip p.stage1).length < MIN_TEXT_LENGTH →
      MIN_TEXT_LENGTH ≤ (pyStrip p.stage2).length →
      loadPdfT p = (.ok (pyStrip p.stage2), [1, 2])) ∧
    ((pyStrip p.stage1).length < MIN_TEXT_LENGTH →
      (pyStrip p.stage2).length < MIN_TEXT_LENGTH →
      MIN_TEXT_LENGTH ≤ (pyStrip p.stage3).length →
      loadPdfT p = (.ok (pyStrip p.stage3), [1, 2, 3])) ∧
    ((pyStrip p.stage1).length < MIN_TEXT_LENGTH →
      (pyStrip p.stage2).length < MIN_TEXT_LENGTH →
      (pyStrip p.stage3).length < MIN_TEXT_LENGTH →
      loadPdfT p = (.error .emptyDocument, [1, 2, 3])) := by
  obtain ⟨pf, s1, s2, s3⟩ := p
  simp only at hpre
  subst hpre
  refine ⟨?_, ?_, ?_, ?_⟩
  · intro h1
    simp only [loadPdfT]
    rw [if_pos ((pdfStageOk_iff s1).mpr h1)]
  · intro h1 h2
    simp only [loadPdfT]
    rw [if_neg ((pdfStageOk_iff s1).not.mpr (not_le.mpr h1)),
      if_pos ((pdfStageOk_iff s2).mpr h2)]
  · intro h1 h2 h3
    simp only [loadPdfT]
    rw [if_neg ((pdfStageOk_iff s1).not.mpr (not_le.mpr h1)),
      if_neg ((pdfStageOk_iff s2).not.mpr (not_le.mpr h2)),
      if_pos ((pdfStageOk_iff s3).mpr h3)]
  · intro h1 h2 h3
    simp only [loadPdfT]
    rw [if_neg ((pdfStageOk_iff s1).not.mpr (not_le.mpr h1)),
      if_neg ((pdfStageOk_iff s2).not.mpr (not_le.mpr h2)),
      if_neg ((pdfStageOk_iff s3).not.mpr (not_le.mpr h3))]

/-- C3 witness: a PDF whose native layer suffices stops after stage 1; a
PDF whose three stages all fall short runs all three and fails with
`EmptyDocumentError`. -/
theorem c3_pdf_cascade_witness :
    loadPdfT pdfNative = (.ok longPdfText, [1]) ∧
      loadPdfT pdfScanned = (.error .emptyDocument, [1, 2, 3]) :=
  ⟨((c3_pdf_cascade pdfNative rfl).1 (by decide)).trans (by decide),
    (c3_pdf_cascade pdfScanned rfl).2.2.2 (by decide) (by decide) (by decide)⟩

/-- C4: when the filtered query returns zero matches, `ask_question`
returns exactly the sentinel answer with an empty source list and zero
`num_sources`, and the generation model is not called. -/
theorem c4_no_match_policy (env : RagEnv)
    (question userId documentId : String)
    (hq : pyStrip question ≠ "") (v : Embedding)
    (hembed : env.embedQ = .ok v)
    (hquery : env.queryResult = .ok []) :
    askQuestionT env question userId documentId =
      (.ok ⟨"Answer not found in the uploaded document.", [], 0, question⟩,
        false) := by
  have hq' : question ≠ "" := ne_empty_of_pyStrip_ne question hq
  simp [askQuestionT, hq, hq', hembed, hquery, NO_ANSWER]

/-- C4 witness: a concrete environment with no stored chunks. -/
theorem c4_no_match_policy_witness :
    askQuestionT envNoMatch "What is the title?" "u" "d" =
      (.ok ⟨"Answer not found in the uploaded document.", [], 0,
          "What is the title?"⟩, false) :=
  c4_no_match_policy envNoMatch "What is the title?" "u" "d" (by decide) []
    rfl rfl

/-- C5 counterexample: with a failing vector-store deletion and an
existing local artifact, `delete_document` never attempts the local
deletion — the two deletions are not attempted independently. -/
theorem c5_delete_counterexample :
    envDeleteFail.pineconeDelete = .error () ∧
      envDeleteFail.localFileExists = true ∧
      (deleteDocument envDeleteFail "u" "d").localDelete = none :=
  ⟨rfl, rfl, rfl⟩

/-- C5 amended: deletion is sequential, not independent — a vector-store
deletion failure is surfaced as a hard error and prevents the
local-artifact deletion from being attempted; when the vector-store
deletion succeeds, the local deletion is always attempted and a missing
local file is a no-op rather than a failure (the run still returns the
success dictionary). -/
theorem c5_sequential_deletion (env : DeleteEnv)
    (userId documentId : String) :
    (env.pineconeDelete = .error () →
      deleteDocument env userId documentId = ⟨.error (), none⟩) ∧
    (env.pineconeDelete = .ok () →
      deleteDocument env userId documentId =
        ⟨.ok ⟨documentId, "deleted"⟩, some env.localFileExists⟩) := by
  obtain ⟨pd, lf⟩ := env
  constructor
  · intro h
    cases pd with
    | error e => rfl
    | ok a => simp at h
  · intro h
    cases pd with
    | error e => simp at h
    | ok a => rfl

/-- C5 amended witness: successful vector-store deletion with a missing
local artifact still returns the success dictionary. -/
theorem c5_sequential_deletion_witness :
    deleteDocument envDeleteNoFile "u" "d" =
      ⟨.ok ⟨"d", "deleted"⟩, some false⟩ :=
  (c5_sequential_deletion envDeleteNoFile "u" "d").2 rfl

/-- C6: any run that reaches the Store step stores exactly one record per
retained chunk, metadata texts list the retained chunks in order, the
stored values are exactly the model's output on exactly the retained
chunks (the batch filter removed nothing, so the zip aligns), and every
stored metadata text is non-empty after trimming. -/
theorem c6_store_alignment (env : PipelineEnv)
    (fileName userId documentId : String)
    (model : List String → Except Unit (List Embedding))
    (hembed : env.embed = embedTexts model)
    (hlen : ∀ ts es, model ts = .ok es → es.length = ts.length)
    (hcall : (processDocument env fileName userId documentId).upsertCalled =
      true) :
    (processDocument env fileName userId documentId).storedVectors.length =
        (processDocument env fileName userId documentId).retainedChunks.length ∧
    (processDocument env fileName userId documentId).storedVectors.map
        (fun v => v.metadata.text) =
      (processDocument env fileName userId documentId).retainedChunks ∧
    (∃ es, model
        (processDocument env fileName userId documentId).retainedChunks =
          .ok es ∧
      (processDocument env fileName userId documentId).storedVectors.map
          (fun v => v.values) = es) ∧
    ∀ c ∈ (processDocument env fileName userId documentId).retainedChunks,
      pyStrip c ≠ "" := by
  obtain ⟨text, chunks0, es, hx, hsp, hm, hret, hsto⟩ :=
    processDocument_upsert_shape env fileName userId documentId hcall
  rw [hembed] at hm
  have hfi : (chunks0.filter keepText).filter keepText =
      chunks0.filter keepText := filter_filter_self keepText chunks0
  have hmodel : model (chunks0.filter keepText) = .ok es := by
    unfold embedTexts embedTextsT at hm
    by_cases hnil : chunks0.filter keepText = []
    · rw [if_pos hnil] at hm
      simp at hm
    · rw [if_neg hnil] at hm
      simp only [hfi] at hm
      rw [if_neg hnil] at hm
      cases hmm : model (chunks0.filter keepText) with
      | ok es' =>
        rw [hmm] at hm
        have hm2 : es' = es := by simpa using hm
        rw [hm2]
      | error u =>
        rw [hmm] at hm
        simp at hm
  have hlen' : es.length = (chunks0.filter keepText).length :=
    hlen (chunks0.filter keepText) es hmodel
  refine ⟨?_, ?_, ⟨es, by rw [hret]; exact hmodel, ?_⟩, ?_⟩
  · rw [hret, hsto, prepareVectors, prepareVectorsFrom_length]
    omega
  · rw [hret, hsto, prepareVectors]
    exact prepareVectorsFrom_map_text userId documentId fileName 0
      (chunks0.filter keepText) es hlen'.symm
  · rw [hsto, prepareVectors]
    exact prepareVectorsFrom_map_values userId documentId fileName 0
      (chunks0.filter keepText) es hlen'.symm
  · intro c hc
    rw [hret] at hc
    have hmem := List.mem_filter.mp hc
    exact (keepText_iff c).mp hmem.2

/-- C6 witness: a full end-to-end run with a one-chunk splitter and the
constant-vector model. -/
theorem c6_store_alignment_witness :
    (processDocument envFull "a.txt" "u" "d").storedVectors.length =
        (processDocument envFull "a.txt" "u" "d").retainedChunks.length ∧
      (processDocument envFull "a.txt" "u" "d").storedVectors.map
          (fun v => v.metadata.text) =
        (processDocument envFull "a.txt" "u" "d").retainedChunks ∧
      (∃ es, modelConst
          (processDocument envFull "a.txt" "u" "d").retainedChunks =
            .ok es ∧
        (processDocument envFull "a.txt" "u" "d").storedVectors.map
            (fun v => v.values) = es) ∧
      ∀ c ∈ (processDocument envFull "a.txt" "u" "d").retainedChunks,
        pyStrip c ≠ "" :=
  c6_store_alignment envFull "a.txt" "u" "d" modelConst rfl
    (fun ts es h => by injection h with h; rw [← h]; simp)
    (by decide)

/-- C7: `embed_texts` fails with `ValueError` exactly when the input list
is empty or every entry is empty after stripping; whenever the model is
called, its argument is the input filtered to the non-empty-after-strip
entries, an order-preserving sublist of the input. -/
theorem c7_batch_filter
    (model : List String → Except Unit (List Embedding))
    (texts : List String) :
    ((embedTextsT model texts).1 = .error .invalidInput ↔
      texts = [] ∨ ∀ t ∈ texts, pyStrip t = "") ∧
    (∀ arg, (embedTextsT model texts).2 = some arg →
      arg = texts.filter keepText ∧ arg.Sublist texts) := by
  by_cases h0 : texts = []
  · subst h0
    refine ⟨by simp [embedTextsT], ?_⟩
    intro arg harg
    simp [embedTextsT] at harg
  · by_cases hv : texts.filter keepText = []
    · refine ⟨?_, ?_⟩
      · constructor
        · intro _
          right
          intro t ht
          by_contra hne
          have hk : keepText t = true := (keepText_iff t).mpr hne
          have : t ∈ texts.filter keepText := List.mem_filter.mpr ⟨ht, hk⟩
          rw [hv] at this
          simp at this
        · intro _
          simp [embedTextsT, h0, hv]
      · intro arg harg
        simp [embedTextsT, h0, hv] at harg
    · refine ⟨?_, ?_⟩
      · constructor
        · intro hres
          exfalso
          simp only [embedTextsT, if_neg h0, if_neg hv] at hres
          cases hmm : model (texts.filter keepText) with
          | ok es => rw [hmm] at hres; simp at hres
          | error u => rw [hmm] at hres; simp at hres
        · intro hcase
          rcases hcase with h | hall
          · exact absurd h h0
          · exfalso
            apply hv
            apply List.filter_eq_nil_iff.mpr
            intro a ha
            intro hk
            exact (keepText_iff a).mp hk (hall a ha)
      · intro arg harg
        simp only [embedTextsT, if_neg h0, if_neg hv] at harg
        cases hmm : model (texts.filter keepText) with
        | ok es =>
          rw [hmm] at harg
          simp only [Option.some.injEq] at harg
          subst harg
          exact ⟨rfl, List.filter_sublist texts⟩
        | error u =>
          rw [hmm] at harg
          simp only [Option.some.injEq] at harg
          subst harg
          exact ⟨rfl, List.filter_sublist texts⟩

/-- C7 witness: the model argument for a batch with two blank and two
non-blank entries is the order-preserving filtered sublist. -/
theorem c7_batch_filter_witness :
    ["hello", " world "] =
        (["", "  ", "hello", " world "] : List String).filter keepText ∧
      List.Sublist ["hello", " world "] ["", "  ", "hello", " world "] :=
  (c7_batch_filter modelConst ["", "  ", "hello", " world "]).2
    ["hello", " world "] (by decide)

/-- C8: `_load_txt` tries UTF-8, UTF-8-BOM, Latin-1, Windows-1252 in that
order and returns the first decode that yields non-empty-after-strip text
provided the earlier encodings failed to decode or decoded to whitespace;
a zero-byte file (every encoding decodes to `""`) fails with
`EmptyDocumentError`; and when no encoding yields non-empty text the load
fails with `EmptyDocumentError` or `CorruptedFileError`, never returning
text. -/
theorem c8_txt_encoding_order (f : TxtFile) :
    (∀ (pre : List TxtEncoding) (e : TxtEncoding) (post : List TxtEncoding),
      txtEncodings = pre ++ e :: post →
      (∀ e' ∈ pre, skipsEncoding f e') →
      ∀ t, f.decode e = .decoded t → pyStrip t ≠ "" →
      loadTxt f = .ok t) ∧
    (f.byteLen = 0 → (∀ e, f.decode e = .decoded "") →
      loadTxt f = .error .emptyDocument) ∧
    ((∀ e ∈ txtEncodings, ∀ t, f.decode e = .decoded t → pyStrip t = "") →
      loadTxt f = .error .emptyDocument ∨
        loadTxt f = .error .corruptedFile) := by
  refine ⟨?_, ?_, ?_⟩
  · intro pre e post heq hskip t hdec hne
    unfold loadTxt
    rw [heq, loadTxtAux_append_skipped f pre (e :: post) hskip]
    rw [loadTxtAux, hdec]
    exact if_pos hne
  · intro _ hall
    unfold loadTxt
    have hsk : ∀ e ∈ txtEncodings, skipsEncoding f e :=
      fun e _ => Or.inr ⟨"", hall e, pyStrip_empty⟩
    have happ := loadTxtAux_append_skipped f txtEncodings [] hsk
    rw [List.append_nil] at happ
    exact happ
  · intro h
    exact loadTxtAux_no_success f txtEncodings h

/-- C8 witness: a file whose UTF-8 decode fails but whose UTF-8-BOM decode
yields text is returned from the second encoding; a zero-byte file fails
with `EmptyDocumentError`. -/
theorem c8_txt_encoding_order_witness :
    loadTxt txtBom = .ok "hello from the second encoding" ∧
      loadTxt txtZero = .error .emptyDocument := by
  constructor
  · refine (c8_txt_encoding_order txtBom).1 [TxtEncoding.utf8]
      TxtEncoding.utf8sig [TxtEncoding.latin1, TxtEncoding.cp1252] rfl
      ?_ "hello from the second encoding" rfl (by decide)
    intro e' he'
    have he2 : e' = TxtEncoding.utf8 := by simpa using he'
    subst he2
    exact Or.inl rfl
  · exact (c8_txt_encoding_order txtZero).2.1 rfl (fun e => rfl)

/-- C9: one call to `list_documents_for_user` never returns two entries
with the same `document_id`, and each entry's `file_name` comes from the
first backend match carrying that `document_id`. -/
theorem c9_dedup_first_seen (found : List ListMeta) :
    ((listDocumentsForUser found).map (fun e => e.document_id)).Nodup ∧
    ∀ e ∈ listDocumentsForUser found,
      ∃ m, found.find?
          (fun m' => m'.document_id == some e.document_id) = some m ∧
        e.file_name = m.file_name.getD "Unknown" := by
  obtain ⟨h1, h2⟩ := buildSeen_invariant found [] (by simp)
  refine ⟨h1, ?_⟩
  intro e he
  rcases h2 e he with h | ⟨_, _, mm, hfind, hfn⟩
  · simp at h
  · exact ⟨mm, hfind, hfn⟩

/-- C9 witness: raw matches with a duplicated id keep only the first
occurrence and its file name. -/
theorem c9_dedup_first_seen_witness :
    ((listDocumentsForUser foundDup).map (fun e => e.document_id)).Nodup ∧
      ∃ m, foundDup.find?
          (fun m' => m'.document_id == some "A") = some m ∧
        "f1" = m.file_name.getD "Unknown" := by
  have h := c9_dedup_first_seen foundDup
  exact ⟨h.1, h.2 ⟨"A", "f1"⟩ (by decide)⟩

/-- C10: the vector-record id built during ingestion is deterministically
`"{document_id}_chunk_{chunk_index}"`, independent of the chunk contents,
embeddings, user or file name — so re-ingestion under the same document
id rewrites the same ids. -/
theorem c10_deterministic_vector_id (chunks : List String)
    (embeddings : List Embedding) (u d f : String) (i : Nat)
    (h : i < (prepareVectors chunks embeddings u d f).length) :
    ((prepareVectors chunks embeddings u d f).get ⟨i, h⟩).id =
      d ++ "_chunk_" ++ toString i := by
  have := prepareVectorsFrom_id u d f 0 chunks embeddings i h
  simpa using this

/-- C10 witness: the first record of a concrete ingestion has id
`"doc42_chunk_0"`. -/
theorem c10_deterministic_vector_id_witness :
    ((prepareVectors ["sample chunk"] ([[1]] : List Embedding) "u7" "doc42"
        "file.txt").get ⟨0, by decide⟩).id = "doc42_chunk_0" :=
  (c10_deterministic_vector_id ["sample chunk"] ([[1]] : List Embedding)
      "u7" "doc42" "file.txt" 0 (by decide)).trans (by decide)

end HackX
